import Mathlib

/-!
Verification of the Megascops batch detection pipeline (`src-tauri`).

The Rust sources under `src/src-tauri/src` are shallowly embedded below:
pure computations become Lean functions, the supervisor (`process`) and
the RPC bridge become explicit state-passing functions or step functions
over small state types, and machine integers are modelled by `Nat`/`Int`
with explicit wrap-around where the source casts.  The `f32` arithmetic
of `resize_encode` is idealised to exact natural-number division (the
claims under verification do not depend on rounding of `f32`); `f32`
payloads that are only copied (bbox coordinates, scores, thresholds) are
carried opaquely as integers.  The repository modules `utils.rs`,
`export.rs` and `io.rs` are referenced by `lib.rs` but are not part of
the given sources; the single definition taken from them that a claim
depends on (`sample_evenly`) is modelled from the specification and
marked as such in its doc comment.
-/

set_option maxHeartbeats 1000000

namespace Megascops

/-- A file descriptor (`utils::FileItem`): the canonical source path, the
working (staged) path, and the extension of the source path
(`file_path.extension()` is modelled as an explicit optional field). -/
structure FileItem where
  file_path : String
  tmp_path : String
  extension : Option String
deriving DecidableEq

/-- A detection bounding box as stored in an export record
(`export::Bbox`).  Coordinates and score are `f32` in the source and are
carried opaquely as integers; `cls` models the `class: usize` field. -/
structure Bbox where
  x1 : Int
  y1 : Int
  x2 : Int
  y2 : Int
  cls : Nat
  score : Int
deriving DecidableEq

/-- An export record (`export::ExportFrame`, the spec's FrameRecord).
The `file` field is the identity of the source file, i.e. its source
path string. -/
structure ExportFrame where
  file : String
  frame_index : Nat
  shoot_time : Option String
  total_frames : Nat
  iframe : Bool
  bboxes : Option (List Bbox)
  label : Option String
  error : Option String
deriving DecidableEq

/-- A server-side bounding box of a `DetectResponse` (proto `md5rs`).
The `cls` field is an `i32` on the wire. -/
structure RespBbox where
  x1 : Int
  y1 : Int
  x2 : Int
  y2 : Int
  cls : Int
  score : Int
deriving DecidableEq

/-- A streaming reply of the `detect` RPC. -/
structure DetectResponse where
  uuid : String
  bboxs : List RespBbox
  label : String
deriving DecidableEq

/-- An outbound request of the `detect` RPC.  `width`/`height` are `i32`
on the wire; `iou` and `score` are `f32` thresholds carried opaquely. -/
structure DetectRequest where
  uuid : String
  image : List Nat
  width : Int
  height : Int
  iou : Int
  score : Int
  iframe : Bool
deriving DecidableEq

/-- An extracted frame (`media::Frame`) minus the heavyweight pixel
buffer, which is kept as an opaque byte list.  `file` is the source-path
identity of its `FileItem`. -/
structure Frame where
  file : String
  webp : List Nat
  width : Nat
  height : Nat
  frame_index : Nat
  total_frames : Nat
  shoot_time : Option String
  iframe : Bool
deriving DecidableEq

/-- The items emitted by the frame producer (`media::WebpItem`): an
extracted frame or a per-file error carrying the source path and the
rendered error message. -/
inductive WebpItem where
  | frame (f : Frame)
  | errFile (file : String) (err : String)
deriving DecidableEq

/-- The Rust cast `c as usize` applied to an `i32`, on a 64-bit target:
sign-extend to 64 bits and reinterpret as unsigned. -/
def usize_of_i32 (c : Int) : Nat := (c % (2 : Int) ^ 64).toNat

/-- The Rust cast `n as i32` applied to a `usize`: truncate to 32 bits
and reinterpret as signed. -/
def i32_of_usize (n : Nat) : Int :=
  let m : Int := (n : Int) % (2 : Int) ^ 32
  if m < (2 : Int) ^ 31 then m else m - (2 : Int) ^ 32

/-- The bbox conversion performed in the inbound loop of `process`
(lib.rs 278-291): server fields are copied one-to-one and `class` is
cast `as usize`. -/
def bbox_of_resp (b : RespBbox) : Bbox :=
  { x1 := b.x1, y1 := b.y1, x2 := b.x2, y2 := b.y2,
    cls := usize_of_i32 b.cls, score := b.score }

/-- The skeleton `ExportFrame` built in the outbound stream of `process`
(lib.rs 228-237): metadata copied from the frame, `bboxes`, `label` and
`error` all null. -/
def skeleton_of_frame (f : Frame) : ExportFrame :=
  { file := f.file, frame_index := f.frame_index, shoot_time := f.shoot_time,
    total_frames := f.total_frames, iframe := f.iframe,
    bboxes := none, label := none, error := none }

/-- The outbound `DetectRequest` yielded for a frame (lib.rs 239). -/
def request_of_frame (f : Frame) (uuid : String) (iou score : Int) : DetectRequest :=
  { uuid := uuid, image := f.webp, width := i32_of_usize f.width,
    height := i32_of_usize f.height, iou := iou, score := score, iframe := f.iframe }

/-- The failure `ExportFrame` enqueued for a `WebpItem::ErrFile`
(lib.rs 242-251): `frame_index = 0`, `total_frames = 0`, `error` set,
everything else null/false. -/
def err_export_frame (file err : String) : ExportFrame :=
  { file := file, frame_index := 0, shoot_time := none, total_frames := 0,
    iframe := false, bboxes := none, label := none, error := some err }

/-- The merge performed by the inbound loop on a pending skeleton
(lib.rs 278-292): populate `bboxes` and `label` from the response,
leaving every other field of the skeleton unchanged. -/
def merge_response (fr : ExportFrame) (r : DetectResponse) : ExportFrame :=
  { fr with bboxes := some (r.bboxs.map bbox_of_resp), label := some r.label }

/-- An event observed by the RPC bridge of `process`: a frame pulled
from the media queue together with the uuid minted for it (lib.rs
226-240), a per-file error item (lib.rs 241-252), or an inbound
response (lib.rs 272-295). -/
inductive BridgeEv where
  | frame (f : Frame) (uuid : String)
  | errFile (file err : String)
  | response (r : DetectResponse)

/-- The shared state of the RPC bridge: the PendingMap `frames`
(uuid to skeleton), the sequence of records enqueued to the exporter
channel, and the ghost log of outbound requests as (uuid, source file)
pairs. -/
structure BridgeState where
  pending : String → Option ExportFrame
  exported : List ExportFrame
  sent : List (String × String)

/-- One step of the RPC bridge.  A frame event inserts its skeleton into
the PendingMap and logs the outbound request; an error-file event
enqueues the failure record directly; a response event removes the entry
keyed by its uuid if present, enqueues the merged record, and otherwise
changes nothing. -/
def bridge_step (s : BridgeState) : BridgeEv → BridgeState
  | .frame f u =>
      { s with
        pending := fun k => if k = u then some (skeleton_of_frame f) else s.pending k,
        sent := s.sent ++ [(u, f.file)] }
  | .errFile fl e =>
      { s with exported := s.exported ++ [err_export_frame fl e] }
  | .response r =>
      match s.pending r.uuid with
      | some fr =>
          { s with
            pending := fun k => if k = r.uuid then none else s.pending k,
            exported := s.exported ++ [merge_response fr r] }
      | none => s

/-- The bridge starts with an empty PendingMap and nothing enqueued. -/
def bridge_init : BridgeState :=
  { pending := fun _ => none, exported := [], sent := [] }

/-- Run the bridge over a sequence of events. -/
def bridge_run (evs : List BridgeEv) : BridgeState :=
  evs.foldl bridge_step bridge_init

/-- A successful outcome: `bboxes` and `label` set, `error` null. -/
def frame_ok (e : ExportFrame) : Prop :=
  e.bboxes ≠ none ∧ e.label ≠ none ∧ e.error = none

/-- A failed outcome: `error` set, `bboxes` and `label` null. -/
def frame_failed (e : ExportFrame) : Prop :=
  e.bboxes = none ∧ e.label = none ∧ e.error ≠ none

instance (e : ExportFrame) : Decidable (frame_ok e) := by
  unfold frame_ok; infer_instance

instance (e : ExportFrame) : Decidable (frame_failed e) := by
  unfold frame_failed; infer_instance

/-- The inductive invariant of the bridge: every PendingMap entry is a
pristine skeleton whose (uuid, file) pair was logged as an outbound
request, and every enqueued record has exactly one outcome. -/
def bridge_inv (s : BridgeState) : Prop :=
  (∀ u fr, s.pending u = some fr →
      fr.bboxes = none ∧ fr.label = none ∧ fr.error = none ∧ (u, fr.file) ∈ s.sent) ∧
  (∀ e ∈ s.exported, Xor' (frame_ok e) (frame_failed e))

/-- Geometry of `media::resize_encode` (media.rs 209-252): the
dimensions of the buffer handed to the WebP encoder.  The source
computes the shorter side with `f32` division truncated `as u32` and
then evens it with `n % 2 + n`; the division is idealised here to exact
natural division. -/
def resize_encode (width height imgsz : Nat) : Nat × Nat :=
  if height < width then
    let rh := height * imgsz / width
    (imgsz, rh % 2 + rh)
  else
    let rw := width * imgsz / height
    (rw % 2 + rw, imgsz)

/-- An output frame of the ffmpeg decoding process
(`ffmpeg_sidecar::event::OutputFrame`): raw pixel data, dimensions and
the ffmpeg frame number. -/
structure OutputFrame where
  data : List Nat
  width : Nat
  height : Nat
  frame_num : Nat
deriving DecidableEq

/-- Modelled from the spec: `utils::sample_evenly` (utils.rs is not part
of the given sources).  Even subsampling of a vector down to at most `k`
entries: when the vector has at most `k` elements it is kept whole,
otherwise the entries at indices `i * N / k` for `i < k` are retained. -/
def sample_evenly {α : Type} (l : List α) (k : Nat) : List α :=
  if hl : l.length ≤ k then l
  else
    List.ofFn (fun i : Fin k =>
      l.get ⟨i.1 * l.length / k, by
        have hn : k < l.length := Nat.lt_of_not_le hl
        have hN : 0 < l.length := Nat.lt_of_le_of_lt (Nat.zero_le k) hn
        have h2 : (i.1 + 1) * l.length ≤ k * l.length :=
          Nat.mul_le_mul_right l.length i.2
        have h3 : i.1 * l.length + l.length = (i.1 + 1) * l.length := by ring
        exact Nat.div_lt_of_lt_mul (by omega)⟩)

/-- The frame item built for one retained video frame in
`handle_ffmpeg_output` (media.rs 408-424): the ffmpeg frame number as
`frame_index`, the original video dimensions, and the retained count as
`total_frames`.  WebP encoding is an external library call and is
modelled as a pass-through of the raw pixel data. -/
def video_frame_record (fi : FileItem) (shoot_time : Option String)
    (orig_w orig_h : Nat) (iframe : Bool) (total : Nat) (f : OutputFrame) : WebpItem :=
  WebpItem.frame
    { file := fi.file_path, webp := f.data, width := orig_w, height := orig_h,
      frame_index := f.frame_num, total_frames := total,
      shoot_time := shoot_time, iframe := iframe }

/-- The tail of `media::handle_ffmpeg_output` (media.rs 357-429) after
the ffmpeg event loop: given the collected output frames, either emit a
single per-file decode error (no frames), or subsample with
`sample_evenly` and emit one `WebpItem::Frame` per retained frame. -/
def handle_ffmpeg_output (frames : List OutputFrame) (fi : FileItem)
    (max_frames : Option Nat) (shoot_time : Option String)
    (orig_w orig_h : Nat) (iframe : Bool) : List WebpItem :=
  if frames.isEmpty then
    [WebpItem.errFile fi.file_path ("Failed to decode: " ++ fi.file_path)]
  else
    let sampled := sample_evenly frames (max_frames.getD frames.length)
    sampled.map (video_frame_record fi shoot_time orig_w orig_h iframe sampled.length)

/-- The environment a media worker runs against: what the external
decoders and probes return for the file at hand.  Image decoding yields
original dimensions and pixel data or an error; the WebP encoder may
fail; video probing yields the original dimensions or an error; video
decoding yields the ffmpeg output frames. -/
structure MediaEnv where
  image_decode : Except String (Nat × Nat × List Nat)
  image_encode_ok : Bool
  image_shoot_time : Option String
  video_dims : Except String (Nat × Nat)
  video_frames : List OutputFrame
  video_shoot_time : Option String

/-- `media::process_image` (media.rs 151-207): emit exactly one item —
a frame record with `frame_index = 0`, `total_frames = 1`,
`iframe = false` and the original dimensions on success, a per-file
error item when decoding or encoding fails. -/
def process_image (fi : FileItem) (env : MediaEnv) : List WebpItem :=
  match env.image_decode with
  | .error e => [WebpItem.errFile fi.file_path e]
  | .ok (w, h, data) =>
      if env.image_encode_ok then
        [WebpItem.frame
          { file := fi.file_path, webp := data, width := w, height := h,
            frame_index := 0, total_frames := 1,
            shoot_time := env.image_shoot_time, iframe := false }]
      else
        [WebpItem.errFile fi.file_path "Failed to encode: Failed to encode image"]

/-- `media::process_video` (media.rs 254-285): a probe failure emits one
per-file error item, otherwise the ffmpeg output is handled by
`handle_ffmpeg_output`. -/
def process_video (fi : FileItem) (env : MediaEnv) (iframe : Bool)
    (max_frames : Option Nat) : List WebpItem :=
  match env.video_dims with
  | .error e => [WebpItem.errFile fi.file_path e]
  | .ok (w, h) =>
      handle_ffmpeg_output env.video_frames fi max_frames env.video_shoot_time w h iframe

/-- ASCII-faithful model of Rust's `str::to_lowercase` as used on file
extensions (media.rs 78). -/
def lower_string (s : String) : String := ⟨s.data.map Char.toLower⟩

/-- Model of Rust's `str::trim` as used on `resume_path` (lib.rs 139):
drop leading and trailing whitespace. -/
def trim_string (s : String) : String :=
  ⟨((s.data.dropWhile Char.isWhitespace).reverse.dropWhile Char.isWhitespace).reverse⟩

/-- `media::media_worker` (media.rs 65-93): dispatch on the lowercased
extension of the file path, collect the emitted items, and push exactly
one progress increment at the end of the block guarded by
`if let Some(extension)`.  The result is the list of emitted items and
the number of progress increments pushed. -/
def media_worker (fi : FileItem) (env : MediaEnv) (iframe : Bool)
    (max_frames : Option Nat) : List WebpItem × Nat :=
  match fi.extension with
  | none => ([], 0)
  | some ext =>
      let e := lower_string ext
      let items :=
        if e = "jpg" ∨ e = "jpeg" ∨ e = "png" then
          process_image fi env
        else if e = "mp4" ∨ e = "avi" ∨ e = "mkv" ∨ e = "mov" then
          process_video fi env iframe max_frames
        else []
      (items, 1)

/-- Number of checkpoint records carrying a given source path
(`file_frame_count` of `resume_from_checkpoint`, lib.rs 416-421, in its
final state). -/
def seen_count (frames : List ExportFrame) (p : String) : Nat :=
  (frames.filter (fun f => decide (f.file = p))).length

/-- The `total_frames` value recorded for a source path, i.e. the value
of its first checkpoint record (`or_insert` keeps the first one seen,
lib.rs 422-424). -/
def expected_total (frames : List ExportFrame) (p : String) : Option Nat :=
  (frames.find? (fun f => decide (f.file = p))).map (fun f => f.total_frames)

/-- A source path the checkpoint does not prove complete: every
recorded `total_frames` value for it (there is at most one, the first
seen) is zero or strictly above the number of records seen for it. -/
def incomplete (frames : List ExportFrame) (p : String) : Prop :=
  ∀ t, expected_total frames p = some t → t = 0 ∨ seen_count frames p < t

/-- The running state of the loop in `resume_from_checkpoint`
(lib.rs 418-433): per-path record counts, per-path first-seen
`total_frames`, and the indexed file set (identified by source path). -/
structure ResumeAcc where
  counts : String → Nat
  totals : String → Option Nat
  files : Finset String

/-- One iteration of the loop in `resume_from_checkpoint`: bump the
count for the record's path, fix the path's `total_frames` on first
sight, and remove the path from the indexed set when the fixed total
equals the new count. -/
def resume_step (a : ResumeAcc) (f : ExportFrame) : ResumeAcc :=
  let c := a.counts f.file + 1
  let t := (a.totals f.file).getD f.total_frames
  { counts := fun s => if s = f.file then c else a.counts s,
    totals := fun s => if s = f.file then some t else a.totals s,
    files := if t = c then a.files.erase f.file else a.files }

/-- The whole loop of `resume_from_checkpoint` over the loaded records. -/
def resume_fold (frames : List ExportFrame) (files : Finset String) : ResumeAcc :=
  frames.foldl resume_step { counts := fun _ => 0, totals := fun _ => none, files := files }

/-- `resume_from_checkpoint` (lib.rs 385-443) after the records have
been loaded and parsed: run the completeness loop over the indexed set
and append every loaded record to the in-memory export buffer.  Returns
the pruned set and the extended buffer. -/
def resume_from_checkpoint (frames : List ExportFrame) (files : Finset String)
    (export_data : List ExportFrame) : Finset String × List ExportFrame :=
  ((resume_fold frames files).files, export_data ++ frames)

/-- The resume dispatch in `process` (lib.rs 137-149): a present
`resume_path` is trimmed and resumption runs only when the trimmed value
is nonempty.  The first component records whether the checkpoint file
was read at all. -/
def resume_dispatch (resume_path : Option String) (files : Finset String)
    (checkpoint_frames : List ExportFrame) (export_data : List ExportFrame) :
    Bool × Finset String × List ExportFrame :=
  match resume_path with
  | some p =>
      if trim_string p ≠ "" then
        let r := resume_from_checkpoint checkpoint_frames files export_data
        (true, r.1, r.2)
      else (false, files, export_data)
  | none => (false, files, export_data)

/-- The external outcomes a run of `process` (lib.rs 111-328) can
encounter, in source order: channel connection, authentication,
canonicalization of the source folder, indexing, checkpoint loading,
the `detect` call itself, and the final export write. -/
structure RunEnv where
  buffer_path : Option String
  check_point : Nat
  resume_path : Option String
  connect_ok : Bool
  auth_ok : Bool
  canonicalize_ok : Bool
  index_ok : Bool
  resume_ok : Bool
  detect_ok : Bool
  export_ok : Bool
deriving DecidableEq

/-- The observable filesystem/progress state threaded through a run:
whether the scratch (buffer) directory exists, whether the source folder
was indexed, whether any records were written to disk, and whether the
zero-checkpoint configuration error was logged. -/
structure RunState where
  buf_dir_exists : Bool
  indexed : Bool
  records_written : Bool
  logged_checkpoint_zero : Bool
deriving DecidableEq

/-- `cleanup_buffer` (lib.rs 375-383): remove the buffer directory when
a buffer path is configured (a no-op removal when it does not exist). -/
def cleanup_buffer (buffer_path : Option String) (s : RunState) : RunState :=
  match buffer_path with
  | some _ => { s with buf_dir_exists := false }
  | none => s

/-- Terminal outcome of `process`: `Ok(())` or an error propagated with
`?` / returned from a failed sub-step. -/
inductive RunExit where
  | ok
  | err (msg : String)
deriving DecidableEq

/-- Sequentialised control flow of `process` (lib.rs 111-328), faithful
to the order of effects in the source: connect (112), auth (115),
`cleanup_buffer` (119), the `check_point == 0` early return (121-124),
canonicalize (127), indexing (132), resume dispatch (137-149), creation
of the buffer directory by the staging task (181) when a buffer path is
configured, the `detect` call (262) whose failure logs, cleans up and
returns `Ok` (266-269), and the inbound terminal paths (296-322) —
stream end `Ok(None)` and stream error `Err(e)` both run the final
export and then `cleanup_buffer`.  A failing final export propagates
with `?` before the cleanup call (301-306, 315-320). -/
def process (env : RunEnv) (s0 : RunState) : RunState × RunExit :=
  if !env.connect_ok then (s0, .err "connect") else
  if !env.auth_ok then (s0, .err "auth") else
  let s1 := cleanup_buffer env.buffer_path s0
  if env.check_point = 0 then ({ s1 with logged_checkpoint_zero := true }, .ok) else
  if !env.canonicalize_ok then (s1, .err "canonicalize") else
  if !env.index_ok then (s1, .err "index") else
  let s2 := { s1 with indexed := true }
  let resume_attempted :=
    match env.resume_path with
    | some p => decide (trim_string p ≠ "")
    | none => false
  if resume_attempted && !env.resume_ok then (s2, .err "resume") else
  let s3 :=
    match env.buffer_path with
    | some _ => { s2 with buf_dir_exists := true }
    | none => s2
  if !env.detect_ok then (cleanup_buffer env.buffer_path s3, .ok) else
  if !env.export_ok then (s3, .err "export") else
  (cleanup_buffer env.buffer_path { s3 with records_written := true }, .ok)

/-- A concrete extracted frame used to exercise the theorems below. -/
def frame_sample : Frame :=
  { file := "a.jpg", webp := [1, 2, 3], width := 3000, height := 2000,
    frame_index := 0, total_frames := 1, shoot_time := none, iframe := false }

/-- A concrete detect response matching `frame_sample`'s request uuid. -/
def response_sample : DetectResponse :=
  { uuid := "u0", bboxs := [{ x1 := 1, y1 := 2, x2 := 3, y2 := 4, cls := 0, score := 9 }],
    label := "blank" }

/-- A concrete successful checkpoint record for a one-frame file. -/
def ck_rec : ExportFrame :=
  { file := "v.mp4", frame_index := 0, shoot_time := none, total_frames := 1,
    iframe := false, bboxes := some [], label := some "blank", error := none }

/-- A concrete video file descriptor used to exercise the media worker. -/
def video_file_sample : FileItem :=
  { file_path := "clip.mp4", tmp_path := "clip.mp4", extension := some "mp4" }

/-- A concrete media environment whose video decodes to two frames. -/
def media_env_sample : MediaEnv :=
  { image_decode := Except.error "unused", image_encode_ok := true,
    image_shoot_time := none, video_dims := Except.ok (640, 480),
    video_frames := [{ data := [0], width := 2, height := 2, frame_num := 0 },
                     { data := [1], width := 2, height := 2, frame_num := 5 }],
    video_shoot_time := none }

end Megascops

namespace Megascops

theorem bridge_inv_init : bridge_inv bridge_init := by
  constructor
  · intro u fr h
    simp [bridge_init] at h
  · intro e he
    simp [bridge_init] at he

theorem xor_err_export_frame (fl e : String) :
    Xor' (frame_ok (err_export_frame fl e)) (frame_failed (err_export_frame fl e)) := by
  simp [Xor', frame_ok, frame_failed, err_export_frame]

theorem xor_merge_response (fr : ExportFrame) (r : DetectResponse)
    (hfr : fr.error = none) :
    Xor' (frame_ok (merge_response fr r)) (frame_failed (merge_response fr r)) := by
  simp [Xor', frame_ok, frame_failed, merge_response, hfr]

theorem bridge_inv_step (s : BridgeState) (ev : BridgeEv) (h : bridge_inv s) :
    bridge_inv (bridge_step s ev) := by
  obtain ⟨hp, he⟩ := h
  cases ev with
  | frame f u =>
      refine ⟨fun v fr hv => ?_, fun e hee => ?_⟩
      · simp only [bridge_step] at hv
        by_cases hvu : v = u
        · subst hvu
          rw [if_pos rfl] at hv
          cases hv
          exact ⟨rfl, rfl, rfl, by simp [bridge_step, skeleton_of_frame]⟩
        · rw [if_neg hvu] at hv
          obtain ⟨h1, h2, h3, h4⟩ := hp v fr hv
          refine ⟨h1, h2, h3, ?_⟩
          simp only [bridge_step, List.mem_append]
          exact Or.inl h4
      · simp only [bridge_step] at hee
        exact he e hee
  | errFile fl e =>
      refine ⟨fun v fr hv => ?_, fun x hx => ?_⟩
      · simp only [bridge_step] at hv
        exact hp v fr hv
      · simp only [bridge_step, List.mem_append, List.mem_singleton] at hx
        rcases hx with hx | hx
        · exact he x hx
        · subst hx
          exact xor_err_export_frame fl e
  | response r =>
      cases hpend : s.pending r.uuid with
      | none =>
          simp only [bridge_step, hpend]
          exact ⟨hp, he⟩
      | some fr0 =>
          simp only [bridge_step, hpend]
          refine ⟨fun v fr hv => ?_, fun x hx => ?_⟩
          · simp only at hv
            by_cases hvu : v = r.uuid
            · rw [if_pos hvu] at hv
              cases hv
            · rw [if_neg hvu] at hv
              exact hp v fr hv
          · simp only [List.mem_append, List.mem_singleton] at hx
            rcases hx with hx | hx
            · exact he x hx
            · subst hx
              exact xor_merge_response fr0 r (hp r.uuid fr0 hpend).2.2.1

theorem bridge_inv_foldl (evs : List BridgeEv) :
    ∀ s : BridgeState, bridge_inv s → bridge_inv (evs.foldl bridge_step s) := by
  induction evs with
  | nil => exact fun s h => h
  | cons ev evs ih => exact fun s h => ih (bridge_step s ev) (bridge_inv_step s ev h)

theorem bridge_inv_run (evs : List BridgeEv) : bridge_inv (bridge_run evs) :=
  bridge_inv_foldl evs bridge_init bridge_inv_init

/-- C1: every FrameRecord ever enqueued to the exporter over any
sequence of bridge events satisfies exactly one of the two outcomes:
either `bboxes` and `label` are both set and `error` is null, or `error`
is set and `bboxes` and `label` are both null — never both and never
neither. -/
theorem c1_enqueued_exclusive_outcome (evs : List BridgeEv) (e : ExportFrame)
    (he : e ∈ (bridge_run evs).exported) :
    Xor' (frame_ok e) (frame_failed e) :=
  (bridge_inv_run evs).2 e he

theorem c1_witness :
    err_export_frame "a.jpg" "decode failed"
        ∈ (bridge_run [BridgeEv.errFile "a.jpg" "decode failed"]).exported ∧
    Xor' (frame_ok (err_export_frame "a.jpg" "decode failed"))
      (frame_failed (err_export_frame "a.jpg" "decode failed")) :=
  ⟨by decide,
    c1_enqueued_exclusive_outcome [BridgeEv.errFile "a.jpg" "decode failed"]
      (err_export_frame "a.jpg" "decode failed") (by decide)⟩

/-- C4: for an inbound response arriving at any reachable bridge state,
only the PendingMap entry keyed by the response's uuid can be removed;
when that entry exists the skeleton's `bboxes` and `label` are populated
from the response, the merged record is enqueued to the exporter, and
its `file` equals the `file` of the outbound request that carried the
same uuid; when no entry exists the state is unchanged. -/
theorem c4_response_correlation (evs : List BridgeEv) (r : DetectResponse) :
    (∀ k, k ≠ r.uuid →
        (bridge_step (bridge_run evs) (.response r)).pending k
          = (bridge_run evs).pending k) ∧
    ((bridge_run evs).pending r.uuid = none →
        bridge_step (bridge_run evs) (.response r) = bridge_run evs) ∧
    (∀ fr, (bridge_run evs).pending r.uuid = some fr →
        (bridge_step (bridge_run evs) (.response r)).pending r.uuid = none ∧
        (bridge_step (bridge_run evs) (.response r)).exported
          = (bridge_run evs).exported ++ [merge_response fr r] ∧
        (bridge_step (bridge_run evs) (.response r)).sent = (bridge_run evs).sent ∧
        (merge_response fr r).bboxes = some (r.bboxs.map bbox_of_resp) ∧
        (merge_response fr r).label = some r.label ∧
        (merge_response fr r).file = fr.file ∧
        (r.uuid, (merge_response fr r).file) ∈ (bridge_run evs).sent) := by
  cases hpend : (bridge_run evs).pending r.uuid with
  | none =>
      refine ⟨fun k _ => ?_, fun _ => ?_, fun fr hfr => ?_⟩
      · simp [bridge_step, hpend]
      · simp [bridge_step, hpend]
      · cases hfr
  | some fr0 =>
      refine ⟨fun k hk => ?_, fun hnone => ?_, fun fr hfr => ?_⟩
      · simp [bridge_step, hpend, if_neg hk]
      · cases hnone
      · cases hfr
        have hsk := ((bridge_inv_run evs).1 r.uuid fr0 hpend).2.2.2
        refine ⟨?_, ?_, ?_, rfl, rfl, rfl, ?_⟩
        · simp [bridge_step, hpend]
        · simp [bridge_step, hpend]
        · simp [bridge_step, hpend]
        · simpa [merge_response] using hsk

theorem c4_witness :
    (bridge_run [BridgeEv.frame frame_sample "u0"]).pending "u0"
        = some (skeleton_of_frame frame_sample) ∧
    ((bridge_step (bridge_run [BridgeEv.frame frame_sample "u0"])
          (.response response_sample)).pending "u0" = none ∧
      (bridge_step (bridge_run [BridgeEv.frame frame_sample "u0"])
          (.response response_sample)).exported
        = (bridge_run [BridgeEv.frame frame_sample "u0"]).exported
            ++ [merge_response (skeleton_of_frame frame_sample) response_sample] ∧
      (bridge_step (bridge_run [BridgeEv.frame frame_sample "u0"])
          (.response response_sample)).sent
        = (bridge_run [BridgeEv.frame frame_sample "u0"]).sent ∧
      (merge_response (skeleton_of_frame frame_sample) response_sample).bboxes
        = some (response_sample.bboxs.map bbox_of_resp) ∧
      (merge_response (skeleton_of_frame frame_sample) response_sample).label
        = some response_sample.label ∧
      (merge_response (skeleton_of_frame frame_sample) response_sample).file
        = (skeleton_of_frame frame_sample).file ∧
      (response_sample.uuid,
          (merge_response (skeleton_of_frame frame_sample) response_sample).file)
        ∈ (bridge_run [BridgeEv.frame frame_sample "u0"]).sent) :=
  ⟨by decide,
    (c4_response_correlation [BridgeEv.frame frame_sample "u0"] response_sample).2.2
      (skeleton_of_frame frame_sample) (by decide)⟩

end Megascops

namespace Megascops

/-- C5: for every image with positive width and height, the buffer
handed to the WebP encoder by `resize_encode` has its longer side equal
to `imgsz` (1280) and its shorter side equal to the aspect-preserving
scaled length of the original shorter side rounded up to the next even
integer (hence even, and at most one above the scaled value). -/
theorem resize_encode_spec (w h : Nat) (hw : 0 < w) (hh : 0 < h) :
    max (resize_encode w h 1280).1 (resize_encode w h 1280).2 = 1280 ∧
    min (resize_encode w h 1280).1 (resize_encode w h 1280).2 % 2 = 0 ∧
    min w h * 1280 / max w h ≤ min (resize_encode w h 1280).1 (resize_encode w h 1280).2 ∧
    min (resize_encode w h 1280).1 (resize_encode w h 1280).2 ≤ min w h * 1280 / max w h + 1 := by
  unfold resize_encode
  by_cases hlt : h < w
  · simp only [if_pos hlt]
    have hw0 : 0 < w := hw
    have hdiv : h * 1280 / w < 1280 := by
      rw [Nat.div_lt_iff_lt_mul hw0]
      omega
    have hminwh : min w h = h := Nat.min_eq_right (Nat.le_of_lt hlt)
    have hmaxwh : max w h = w := Nat.max_eq_left (Nat.le_of_lt hlt)
    rw [hminwh, hmaxwh]
    have h2 := Nat.mod_two_eq_zero_or_one (h * 1280 / w)
    rcases h2 with h2 | h2 <;> simp only [h2] <;> omega
  · simp only [if_neg hlt]
    have hwle : w ≤ h := Nat.le_of_not_lt hlt
    have hh0 : 0 < h := hh
    have hdiv : w * 1280 / h ≤ 1280 := by
      rw [Nat.div_le_iff_le_mul_add_pred hh0]
      omega
    have hminwh : min w h = w := Nat.min_eq_left hwle
    have hmaxwh : max w h = h := Nat.max_eq_right hwle
    rw [hminwh, hmaxwh]
    have h2 := Nat.mod_two_eq_zero_or_one (w * 1280 / h)
    rcases h2 with h2 | h2 <;> simp only [h2] <;> omega

end Megascops

namespace Megascops

theorem c5_witness :
    0 < 3000 ∧ 0 < 2000 ∧
    (max (resize_encode 3000 2000 1280).1 (resize_encode 3000 2000 1280).2 = 1280 ∧
      min (resize_encode 3000 2000 1280).1 (resize_encode 3000 2000 1280).2 % 2 = 0 ∧
      min 3000 2000 * 1280 / max 3000 2000
          ≤ min (resize_encode 3000 2000 1280).1 (resize_encode 3000 2000 1280).2 ∧
      min (resize_encode 3000 2000 1280).1 (resize_encode 3000 2000 1280).2
          ≤ min 3000 2000 * 1280 / max 3000 2000 + 1) :=
  ⟨by decide, by decide, resize_encode_spec 3000 2000 (by decide) (by decide)⟩

theorem find?_concat {α : Type} (q : α → Bool) (l : List α) (a : α) :
    (l ++ [a]).find? q =
      match l.find? q with
      | some x => some x
      | none => if q a then some a else none := by
  induction l with
  | nil =>
      cases hqa : q a <;> simp [List.find?, hqa]
  | cons b l ih =>
      cases hqb : q b <;> simp [List.find?, hqb, ih]

theorem seen_count_concat (l : List ExportFrame) (f : ExportFrame) (p : String) :
    seen_count (l ++ [f]) p = seen_count l p + (if f.file = p then 1 else 0) := by
  by_cases hfp : f.file = p <;>
    simp [seen_count, List.filter_append, hfp]

theorem expected_total_concat (l : List ExportFrame) (f : ExportFrame) (p : String) :
    expected_total (l ++ [f]) p =
      match expected_total l p with
      | some t => some t
      | none => if f.file = p then some f.total_frames else none := by
  unfold expected_total
  rw [find?_concat]
  cases hf : l.find? (fun g => decide (g.file = p)) <;>
    by_cases hfp : f.file = p <;> simp [hf, hfp]

theorem expected_total_eq_none_iff (l : List ExportFrame) (p : String) :
    expected_total l p = none ↔ seen_count l p = 0 := by
  simp [expected_total, seen_count, Option.map_eq_none', List.find?_eq_none,
    List.length_eq_zero, List.filter_eq_nil_iff, decide_eq_true_eq]

theorem resume_fold_concat (l : List ExportFrame) (f : ExportFrame) (files : Finset String) :
    resume_fold (l ++ [f]) files = resume_step (resume_fold l files) f := by
  simp [resume_fold, List.foldl_append]

theorem incomplete_concat_self (l : List ExportFrame) (a : ExportFrame) :
    incomplete (l ++ [a]) a.file ↔
      ((expected_total l a.file).getD a.total_frames = 0 ∨
        seen_count l a.file + 1 < (expected_total l a.file).getD a.total_frames) := by
  unfold incomplete
  rw [expected_total_concat, seen_count_concat, if_pos rfl]
  cases he : expected_total l a.file <;> simp [he]

theorem incomplete_concat_other (l : List ExportFrame) (a : ExportFrame) (p : String)
    (hp : p ≠ a.file) :
    incomplete (l ++ [a]) p ↔ incomplete l p := by
  unfold incomplete
  rw [expected_total_concat, seen_count_concat]
  have hps : a.file ≠ p := fun h => hp h.symm
  cases he : expected_total l p <;> simp [he, hps]

theorem resume_fold_spec (files : Finset String) (frames : List ExportFrame) :
    (∀ p, (resume_fold frames files).counts p = seen_count frames p) ∧
    (∀ p, (resume_fold frames files).totals p = expected_total frames p) ∧
    (∀ p, p ∈ (resume_fold frames files).files ↔ p ∈ files ∧ incomplete frames p) := by
  induction frames using List.reverseRecOn with
  | nil =>
      refine ⟨fun p => rfl, fun p => rfl, fun p => ?_⟩
      simp [resume_fold, incomplete, expected_total, List.find?]
  | append_singleton l a ih =>
      obtain ⟨ihc, iht, ihf⟩ := ih
      refine ⟨fun p => ?_, fun p => ?_, fun p => ?_⟩
      · rw [resume_fold_concat, seen_count_concat]
        show (resume_step (resume_fold l files) a).counts p = _
        simp only [resume_step]
        by_cases hp : p = a.file
        · subst hp
          rw [if_pos rfl, if_pos rfl, ihc]
        · rw [if_neg hp, if_neg (fun h => hp h.symm), ihc]
          omega
      · rw [resume_fold_concat, expected_total_concat]
        show (resume_step (resume_fold l files) a).totals p = _
        simp only [resume_step]
        by_cases hp : p = a.file
        · subst hp
          rw [if_pos rfl, iht]
          cases he : expected_total l a.file <;> simp [he]
        · rw [if_neg hp, iht]
          have hps : a.file ≠ p := fun h => hp h.symm
          cases he : expected_total l p <;> simp [he, hps]
      · rw [resume_fold_concat]
        show p ∈ (resume_step (resume_fold l files) a).files ↔ _
        simp only [resume_step]
        rw [iht, ihc]
        by_cases hp : p = a.file
        · subst hp
          rw [incomplete_concat_self]
          by_cases hc : (expected_total l a.file).getD a.total_frames
              = seen_count l a.file + 1
          · rw [if_pos hc]
            constructor
            · intro hmem
              exact absurd rfl (Finset.mem_erase.mp hmem).1
            · rintro ⟨hmem, hb | hb⟩ <;> (exfalso; omega)
          · rw [if_neg hc, ihf a.file]
            unfold incomplete
            cases he : expected_total l a.file with
            | none =>
                have hs0 := (expected_total_eq_none_iff l a.file).mp he
                rw [he] at hc
                simp only [Option.getD_none] at hc
                simp only [he, Option.getD_none]
                constructor
                · rintro ⟨hm, -⟩
                  exact ⟨hm, by omega⟩
                · rintro ⟨hm, -⟩
                  exact ⟨hm, fun t ht => by cases ht⟩
            | some t =>
                rw [he] at hc
                simp only [Option.getD_some] at hc
                simp only [he, Option.getD_some]
                constructor
                · rintro ⟨hm, hall⟩
                  have := hall t rfl
                  exact ⟨hm, by omega⟩
                · rintro ⟨hm, hd⟩
                  refine ⟨hm, fun t' ht' => ?_⟩
                  cases ht'
                  omega
        · rw [incomplete_concat_other l a p hp]
          by_cases hc : (expected_total l a.file).getD a.total_frames
              = seen_count l a.file + 1
          · rw [if_pos hc]
            simp [Finset.mem_erase, hp, ihf p]
          · rw [if_neg hc, ihf p]

end Megascops

namespace Megascops

theorem c2_counterexample :
    seen_count [ck_rec, ck_rec] "v.mp4" = 2 ∧
    expected_total [ck_rec, ck_rec] "v.mp4" = some 1 ∧
    "v.mp4" ∈ ({"v.mp4"} : Finset String) ∧
    "v.mp4" ∉ (resume_from_checkpoint [ck_rec, ck_rec] {"v.mp4"} []).1 := by
  decide

/-- C2 (amended): on resume, a source path present in the indexed set is
removed exactly when its expected total — the `total_frames` value of
its first checkpoint record — is at least 1 and at most the number of
its checkpoint records, i.e. exactly when the running record count
reaches the expected total; in particular paths with fewer records than
their expected total remain in the set and are re-processed, and all
loaded checkpoint records are appended to the in-memory export
buffer. -/
theorem c2_resume_completeness (frames : List ExportFrame) (files : Finset String)
    (buf : List ExportFrame) (p : String) (hp : p ∈ files) :
    (p ∉ (resume_from_checkpoint frames files buf).1 ↔
      ∃ t, expected_total frames p = some t ∧ 1 ≤ t ∧ t ≤ seen_count frames p) ∧
    (resume_from_checkpoint frames files buf).2 = buf ++ frames := by
  refine ⟨?_, rfl⟩
  show p ∉ (resume_fold frames files).files ↔ _
  rw [(resume_fold_spec files frames).2.2 p]
  simp only [hp, true_and]
  constructor
  · intro hni
    unfold incomplete at hni
    push_neg at hni
    obtain ⟨t, ht, hne1, hne2⟩ := hni
    exact ⟨t, ht, by omega, hne2⟩
  · rintro ⟨t, ht, h1, h2⟩ hinc
    have := hinc t ht
    omega

theorem c2_witness :
    "v.mp4" ∈ ({"v.mp4"} : Finset String) ∧
    (("v.mp4" ∉ (resume_from_checkpoint [ck_rec] {"v.mp4"} []).1 ↔
        ∃ t, expected_total [ck_rec] "v.mp4" = some t ∧ 1 ≤ t ∧
          t ≤ seen_count [ck_rec] "v.mp4") ∧
      (resume_from_checkpoint [ck_rec] {"v.mp4"} []).2 = [] ++ [ck_rec]) :=
  ⟨by decide, c2_resume_completeness [ck_rec] {"v.mp4"} [] "v.mp4" (by decide)⟩

/-- C10: the per-file error record is enqueued with `frame_index = 0`
and `total_frames = 0`; consequently a source path all of whose
checkpoint records are error records has expected total 0 whenever it
has any record at all, can never satisfy the completeness predicate
(its seen count is at least 1), and remains in the indexed set of every
resumed run. -/
theorem c10_error_records_never_complete (p e : String) (frames : List ExportFrame)
    (files : Finset String) (buf : List ExportFrame) (hp : p ∈ files)
    (hall : ∀ f ∈ frames, f.file = p → ∃ m, f = err_export_frame p m) :
    (err_export_frame p e).frame_index = 0 ∧
    (err_export_frame p e).total_frames = 0 ∧
    (err_export_frame p e).error = some e ∧
    (1 ≤ seen_count frames p → expected_total frames p = some 0) ∧
    p ∈ (resume_from_checkpoint frames files buf).1 := by
  refine ⟨rfl, rfl, rfl, ?_, ?_⟩
  · intro hseen
    cases hf : frames.find? (fun g => decide (g.file = p)) with
    | none =>
        have : expected_total frames p = none := by
          unfold expected_total
          rw [hf]
          rfl
        rw [expected_total_eq_none_iff] at this
        omega
    | some f0 =>
        have hfp : f0.file = p := by simpa using List.find?_some hf
        obtain ⟨m, hm⟩ := hall f0 (List.mem_of_find?_eq_some hf) hfp
        unfold expected_total
        rw [hf, hm]
        rfl
  · show p ∈ (resume_fold frames files).files
    rw [(resume_fold_spec files frames).2.2 p]
    refine ⟨hp, fun t ht => ?_⟩
    left
    unfold expected_total at ht
    cases hf : frames.find? (fun g => decide (g.file = p)) with
    | none =>
        rw [hf] at ht
        cases ht
    | some f0 =>
        rw [hf] at ht
        simp only [Option.map_some'] at ht
        have hfp : f0.file = p := by simpa using List.find?_some hf
        obtain ⟨m, hm⟩ := hall f0 (List.mem_of_find?_eq_some hf) hfp
        rw [hm] at ht
        cases ht
        rfl

theorem c10_witness :
    "b.jpg" ∈ ({"b.jpg"} : Finset String) ∧
    ((err_export_frame "b.jpg" "oops").frame_index = 0 ∧
      (err_export_frame "b.jpg" "oops").total_frames = 0 ∧
      (err_export_frame "b.jpg" "oops").error = some "oops" ∧
      (1 ≤ seen_count [err_export_frame "b.jpg" "oops"] "b.jpg" →
        expected_total [err_export_frame "b.jpg" "oops"] "b.jpg" = some 0) ∧
      "b.jpg" ∈ (resume_from_checkpoint [err_export_frame "b.jpg" "oops"]
          {"b.jpg"} []).1) :=
  ⟨by decide,
    c10_error_records_never_complete "b.jpg" "oops"
      [err_export_frame "b.jpg" "oops"] {"b.jpg"} [] (by decide)
      (fun f hf _ => ⟨"oops", List.mem_singleton.mp hf⟩)⟩

end Megascops

namespace Megascops

/-- C3: when the scratch (buffer) directory does not exist at run start
and the final export write succeeds, every exit path of `process` —
connect failure, auth failure, zero checkpoint interval, canonicalize
or index failure, resume failure, a failed `detect` call, and the
stream-terminal export paths — ends with the scratch directory not
existing. -/
theorem c3_scratch_cleanup (env : RunEnv) (s0 : RunState)
    (h0 : s0.buf_dir_exists = false) (hexp : env.export_ok = true) :
    (process env s0).1.buf_dir_exists = false := by
  unfold process cleanup_buffer
  cases hbp : env.buffer_path <;>
    simp only [hbp] <;> split_ifs <;> simp_all

theorem c3_witness :
    (⟨false, false, false, false⟩ : RunState).buf_dir_exists = false ∧
    (⟨some "buf", 10, none, true, true, true, true, true, true, true⟩ : RunEnv).export_ok
      = true ∧
    (process ⟨some "buf", 10, none, true, true, true, true, true, true, true⟩
        ⟨false, false, false, false⟩).1.buf_dir_exists = false :=
  ⟨rfl, rfl,
    c3_scratch_cleanup ⟨some "buf", 10, none, true, true, true, true, true, true, true⟩
      ⟨false, false, false, false⟩ rfl rfl⟩

/-- C8: when connection and authentication succeed and the configured
checkpoint interval (`check_point`) is zero, the run logs the
configuration error and exits cleanly, returning success without
indexing any files and without writing any records. -/
theorem c8_checkpoint_zero (env : RunEnv) (s0 : RunState)
    (hc : env.connect_ok = true) (ha : env.auth_ok = true)
    (hz : env.check_point = 0) (hi : s0.indexed = false)
    (hw : s0.records_written = false) :
    (process env s0).2 = RunExit.ok ∧
    (process env s0).1.indexed = false ∧
    (process env s0).1.records_written = false ∧
    (process env s0).1.logged_checkpoint_zero = true := by
  unfold process cleanup_buffer
  cases hbp : env.buffer_path <;>
    simp [hbp, hc, ha, hz, hi, hw]

theorem c8_witness :
    (⟨none, 0, none, true, true, true, true, true, true, true⟩ : RunEnv).connect_ok
        = true ∧
    (⟨none, 0, none, true, true, true, true, true, true, true⟩ : RunEnv).auth_ok = true ∧
    (⟨none, 0, none, true, true, true, true, true, true, true⟩ : RunEnv).check_point = 0 ∧
    (⟨false, false, false, false⟩ : RunState).indexed = false ∧
    (⟨false, false, false, false⟩ : RunState).records_written = false ∧
    ((process ⟨none, 0, none, true, true, true, true, true, true, true⟩
        ⟨false, false, false, false⟩).2 = RunExit.ok ∧
      (process ⟨none, 0, none, true, true, true, true, true, true, true⟩
          ⟨false, false, false, false⟩).1.indexed = false ∧
      (process ⟨none, 0, none, true, true, true, true, true, true, true⟩
          ⟨false, false, false, false⟩).1.records_written = false ∧
      (process ⟨none, 0, none, true, true, true, true, true, true, true⟩
          ⟨false, false, false, false⟩).1.logged_checkpoint_zero = true) :=
  ⟨rfl, rfl, rfl, rfl, rfl,
    c8_checkpoint_zero ⟨none, 0, none, true, true, true, true, true, true, true⟩
      ⟨false, false, false, false⟩ rfl rfl rfl rfl rfl⟩

/-- C9: a provided `resume_path` whose value trims to the empty string
skips resumption entirely: the checkpoint loader is not invoked, no
error is raised, and the indexed set and export buffer are returned
unchanged, exactly as if `resume_path` were absent. -/
theorem c9_blank_resume_path (p : String) (files : Finset String)
    (ck export_data : List ExportFrame) (hp : trim_string p = "") :
    resume_dispatch (some p) files ck export_data = (false, files, export_data) ∧
    resume_dispatch (some p) files ck export_data
      = resume_dispatch none files ck export_data := by
  unfold resume_dispatch
  simp [hp]

theorem c9_witness :
    trim_string "  " = "" ∧
    (resume_dispatch (some "  ") {"v.mp4"} [ck_rec] [] = (false, {"v.mp4"}, []) ∧
      resume_dispatch (some "  ") {"v.mp4"} [ck_rec] []
        = resume_dispatch none {"v.mp4"} [ck_rec] []) :=
  ⟨by decide, c9_blank_resume_path "  " {"v.mp4"} [ck_rec] [] (by decide)⟩

end Megascops

namespace Megascops

theorem sample_evenly_of_le {α : Type} (l : List α) (k : Nat) (h : l.length ≤ k) :
    sample_evenly l k = l := by
  unfold sample_evenly
  rw [dif_pos h]

theorem sample_evenly_length_of_lt {α : Type} (l : List α) (k : Nat)
    (h : k < l.length) :
    (sample_evenly l k).length = k := by
  unfold sample_evenly
  rw [dif_neg (Nat.not_le.mpr h)]
  exact List.length_ofFn _

theorem sample_evenly_get (l : List OutputFrame) (k i : Nat) (hk : k < l.length)
    (hi : i < k) :
    (sample_evenly l k).get? i = l.get? (i * l.length / k) := by
  unfold sample_evenly
  rw [dif_neg (Nat.not_le.mpr hk)]
  rw [List.get?_ofFn]
  have hidx : i * l.length / k < l.length := by
    have h2 : (i + 1) * l.length ≤ k * l.length := Nat.mul_le_mul_right l.length hi
    have h3 : i * l.length + l.length = (i + 1) * l.length := by ring
    have hN : 0 < l.length := Nat.lt_of_le_of_lt (Nat.zero_le k) hk
    exact Nat.div_lt_of_lt_mul (by omega)
  rw [List.get?_eq_get hidx]
  simp [List.ofFnNthVal, hi]

/-- C6: for a video whose decoding yields a nonempty list of N output
frames, with `max_frames = K`: when N is at least K, exactly K frames
are retained and the emitted item at position i is built from the
decoded frame at index i * N / K; when N is below K, or `max_frames` is
absent, all N frames are retained; and every emitted frame record
carries the count of retained frames as `total_frames`. -/
theorem c6_video_sampling (frames : List OutputFrame) (fi : FileItem)
    (mf : Option Nat) (st : Option String) (w h : Nat) (ifr : Bool)
    (hne : frames ≠ []) :
    (frames.length ≤ mf.getD frames.length →
      handle_ffmpeg_output frames fi mf st w h ifr
        = frames.map (video_frame_record fi st w h ifr frames.length)) ∧
    (mf.getD frames.length < frames.length →
      (handle_ffmpeg_output frames fi mf st w h ifr).length = mf.getD frames.length ∧
      ∀ i, i < mf.getD frames.length →
        (handle_ffmpeg_output frames fi mf st w h ifr).get? i
          = (frames.get? (i * frames.length / mf.getD frames.length)).map
              (video_frame_record fi st w h ifr (mf.getD frames.length))) ∧
    (∀ f, WebpItem.frame f ∈ handle_ffmpeg_output frames fi mf st w h ifr →
      f.total_frames = (handle_ffmpeg_output frames fi mf st w h ifr).length) := by
  have hE : frames.isEmpty = false := by
    cases frames
    · exact absurd rfl hne
    · rfl
  unfold handle_ffmpeg_output
  rw [if_neg (by simp [hE])]
  refine ⟨fun hle => ?_, fun hlt => ⟨?_, fun i hi => ?_⟩, fun f hf => ?_⟩
  · rw [sample_evenly_of_le frames _ hle]
  · rw [List.length_map, sample_evenly_length_of_lt frames _ hlt]
  · rw [List.get?_map, sample_evenly_get frames _ i hlt hi,
      sample_evenly_length_of_lt frames _ hlt]
  · rw [List.length_map]
    obtain ⟨raw, hraw, heq⟩ := List.mem_map.mp hf
    unfold video_frame_record at heq
    injection heq with h1
    rw [← h1]

theorem c6_witness :
    media_env_sample.video_frames ≠ [] ∧
    ((media_env_sample.video_frames.length
          ≤ (some 1).getD media_env_sample.video_frames.length →
        handle_ffmpeg_output media_env_sample.video_frames video_file_sample
            (some 1) none 640 480 false
          = media_env_sample.video_frames.map
              (video_frame_record video_file_sample none 640 480 false
                media_env_sample.video_frames.length)) ∧
      ((some 1).getD media_env_sample.video_frames.length
          < media_env_sample.video_frames.length →
        (handle_ffmpeg_output media_env_sample.video_frames video_file_sample
            (some 1) none 640 480 false).length
          = (some 1).getD media_env_sample.video_frames.length ∧
        ∀ i, i < (some 1).getD media_env_sample.video_frames.length →
          (handle_ffmpeg_output media_env_sample.video_frames video_file_sample
              (some 1) none 640 480 false).get? i
            = (media_env_sample.video_frames.get?
                  (i * media_env_sample.video_frames.length
                    / (some 1).getD media_env_sample.video_frames.length)).map
                (video_frame_record video_file_sample none 640 480 false
                  ((some 1).getD media_env_sample.video_frames.length))) ∧
      (∀ f, WebpItem.frame f ∈ handle_ffmpeg_output media_env_sample.video_frames
            video_file_sample (some 1) none 640 480 false →
        f.total_frames = (handle_ffmpeg_output media_env_sample.video_frames
            video_file_sample (some 1) none 640 480 false).length)) :=
  ⟨by decide,
    c6_video_sampling media_env_sample.video_frames video_file_sample (some 1) none
      640 480 false (by decide)⟩

theorem c7_counterexample :
    (media_worker video_file_sample media_env_sample false none).1
      = [WebpItem.frame
          { file := "clip.mp4", webp := [0], width := 640, height := 480,
            frame_index := 0, total_frames := 2, shoot_time := none, iframe := false },
        WebpItem.frame
          { file := "clip.mp4", webp := [1], width := 640, height := 480,
            frame_index := 5, total_frames := 2, shoot_time := none, iframe := false }] ∧
    (media_worker video_file_sample media_env_sample false none).1.length = 2 ∧
    (media_worker video_file_sample media_env_sample false none).2 = 1 := by
  refine ⟨?_, ?_, ?_⟩ <;> rfl

/-- C7 (amended): `media_worker` pushes exactly one progress increment
per processed file whose path has an extension — pushed once after all
of the file's emissions, regardless of how many frame records or error
records the file emits — and none for a file without an extension. -/
theorem c7_progress_per_file (fi : FileItem) (env : MediaEnv) (ifr : Bool)
    (mf : Option Nat) :
    (media_worker fi env ifr mf).2 = if fi.extension.isSome then 1 else 0 := by
  cases hext : fi.extension <;> simp [media_worker, hext]

end Megascops
